import Mathlib

/-!
Verification of the scr-to-webp screenshot pipeline (src/main.py).

The script is embedded shallowly: Python values flowing through the pipeline
are modelled by the inductive type `Json`, Python exceptions by `PyErr`, and
each fallible operation by an `Except PyErr` computation.  The filesystem,
the external `cwebp` process and the network are modelled by explicit
environment records (`FS`, `Sys`, a `post` function), so every definition is
executable.
-/

namespace Scr2Webp

/-- Python exception classes that the script can raise or catch. -/
inductive PyErr where
  | keyError
  | indexError
  | typeError
  | attributeError
  | jsonDecodeError
  | keyboardInterrupt
  | valueError
  | zeroDivisionError
deriving DecidableEq, Repr

/-- JSON values as produced by Python's json.loads on the script's payloads.
Numbers are modelled as integers: the script's JSON traffic (objects holding
filename strings) contains no fractional numbers, and in this model a
fractional literal simply fails to parse. -/
inductive Json where
  | null
  | bool (b : Bool)
  | num (n : Int)
  | str (s : String)
  | arr (elems : List Json)
  | obj (fields : List (String × Json))

/-- Whitespace characters stripped by Python's str.strip(). -/
def isPyWs (c : Char) : Bool :=
  c == ' ' || c == '\t' || c == '\n' || c == '\r' || c == '\x0b' || c == '\x0c'

/-- Python str.strip() with no arguments. -/
def pyStrip (s : String) : String :=
  ⟨((s.data.dropWhile isPyWs).reverse.dropWhile isPyWs).reverse⟩

/-- Find the first occurrence of sep: the text before it and the text after
it, scanning left to right.  This is the elementary step of Python's
str.split(sep) and also decides Python's substring operator needle in hay. -/
def listSplitOnce (sep : List Char) : List Char → Option (List Char × List Char)
  | [] => if sep.isPrefixOf ([] : List Char) then some ([], []) else none
  | c :: cs =>
    if sep.isPrefixOf (c :: cs) then some ([], (c :: cs).drop sep.length)
    else
      match listSplitOnce sep cs with
      | some (pre, post) => some (c :: pre, post)
      | none => none

/-- Fuelled iteration of `listSplitOnce`, giving all split pieces. -/
def listSplitOnGo : Nat → List Char → List Char → List (List Char)
  | 0, _, s => [s]
  | fuel + 1, sep, s =>
    match listSplitOnce sep s with
    | none => [s]
    | some (pre, post) => pre :: listSplitOnGo fuel sep post

/-- Python str.split(sep) for a non-empty separator. -/
def pySplitOn (s sep : String) : List String :=
  (listSplitOnGo (s.data.length + 1) sep.data s.data).map (fun l => ⟨l⟩)

/-- Python's substring test needle in hay (for str operands of in). -/
def strContains (hay needle : String) : Bool :=
  (listSplitOnce needle.data hay.data).isSome

/-- JSON insignificant whitespace (what Python's json module skips). -/
def isJsonWs (c : Char) : Bool :=
  c == ' ' || c == '\t' || c == '\n' || c == '\r'

def skipWs (s : List Char) : List Char := s.dropWhile isJsonWs

def hexVal (c : Char) : Option Nat :=
  if c.isDigit then some (c.toNat - 48)
  else if 'a' ≤ c ∧ c ≤ 'f' then some (c.toNat - 87)
  else if 'A' ≤ c ∧ c ≤ 'F' then some (c.toNat - 55)
  else none

/-- Parse the body of a JSON string literal (after the opening quote),
handling escapes; raw control characters are rejected as Python's json
module does. -/
def parseJStringGo : Nat → List Char → List Char → Option (List Char × List Char)
  | 0, _, _ => none
  | fuel + 1, acc, s =>
    match s with
    | [] => none
    | '"' :: rest => some (acc.reverse, rest)
    | '\\' :: rest =>
      match rest with
      | '"' :: r => parseJStringGo fuel ('"' :: acc) r
      | '\\' :: r => parseJStringGo fuel ('\\' :: acc) r
      | '/' :: r => parseJStringGo fuel ('/' :: acc) r
      | 'b' :: r => parseJStringGo fuel (Char.ofNat 8 :: acc) r
      | 'f' :: r => parseJStringGo fuel (Char.ofNat 12 :: acc) r
      | 'n' :: r => parseJStringGo fuel ('\n' :: acc) r
      | 'r' :: r => parseJStringGo fuel ('\r' :: acc) r
      | 't' :: r => parseJStringGo fuel ('\t' :: acc) r
      | 'u' :: a :: b :: c :: d :: r =>
        match hexVal a, hexVal b, hexVal c, hexVal d with
        | some ha, some hb, some hc, some hd =>
          parseJStringGo fuel (Char.ofNat (((ha * 16 + hb) * 16 + hc) * 16 + hd) :: acc) r
        | _, _, _, _ => none
      | _ => none
    | c :: rest =>
      if c.toNat < 32 then none else parseJStringGo fuel (c :: acc) rest

def digitsVal (cs : List Char) : Nat :=
  cs.foldl (fun n c => n * 10 + (c.toNat - 48)) 0

/-- JSON integer syntax: at least one digit, no superfluous leading zero. -/
def jnumOk : List Char → Bool
  | [] => false
  | ['0'] => true
  | '0' :: _ :: _ => false
  | _ => true

/-- Parse a JSON integer literal (optional minus sign). -/
def parseJNumber (s : List Char) : Option (Json × List Char) :=
  match s with
  | '-' :: rest =>
    let digits := rest.takeWhile Char.isDigit
    if jnumOk digits then some (.num (-(digitsVal digits : Int)), rest.dropWhile Char.isDigit)
    else none
  | _ =>
    let digits := s.takeWhile Char.isDigit
    if jnumOk digits then some (.num ((digitsVal digits : Nat) : Int), s.dropWhile Char.isDigit)
    else none

/-- Insert a key into an object under construction the way Python's dict
builder does for duplicate JSON keys: the last value wins, the slot of the
first occurrence is kept. -/
def objUpsert (kvs : List (String × Json)) (k : String) (v : Json) : List (String × Json) :=
  if kvs.any (fun p => p.1 == k) then
    kvs.map (fun p => if p.1 == k then (k, v) else p)
  else kvs ++ [(k, v)]

/-- Parser state: a top-level value, the items of an array, or the members
of an object. -/
inductive PMode where
  | value
  | arrayItems (acc : List Json)
  | objectItems (acc : List (String × Json))

/-- Fuelled recursive-descent JSON parser (the model of json.loads's
grammar walk). -/
def parseJ : Nat → PMode → List Char → Option (Json × List Char)
  | 0, _, _ => none
  | fuel + 1, .value, s =>
    match skipWs s with
    | 'n' :: 'u' :: 'l' :: 'l' :: r => some (.null, r)
    | 't' :: 'r' :: 'u' :: 'e' :: r => some (.bool true, r)
    | 'f' :: 'a' :: 'l' :: 's' :: 'e' :: r => some (.bool false, r)
    | '"' :: r =>
      match parseJStringGo (r.length + 1) [] r with
      | some (cs, rest) => some (.str ⟨cs⟩, rest)
      | none => none
    | '[' :: r =>
      match skipWs r with
      | ']' :: r2 => some (.arr [], r2)
      | _ => parseJ fuel (.arrayItems []) r
    | '{' :: r =>
      match skipWs r with
      | '}' :: r2 => some (.obj [], r2)
      | _ => parseJ fuel (.objectItems []) r
    | s' => parseJNumber s'
  | fuel + 1, .arrayItems acc, s =>
    match parseJ fuel .value s with
    | none => none
    | some (v, rest) =>
      match skipWs rest with
      | ',' :: r => parseJ fuel (.arrayItems (v :: acc)) r
      | ']' :: r => some (.arr (v :: acc).reverse, r)
      | _ => none
  | fuel + 1, .objectItems acc, s =>
    match skipWs s with
    | '"' :: r =>
      match parseJStringGo (r.length + 1) [] r with
      | none => none
      | some (kcs, rest) =>
        match skipWs rest with
        | ':' :: r2 =>
          match parseJ fuel .value r2 with
          | none => none
          | some (v, rest2) =>
            match skipWs rest2 with
            | ',' :: r3 => parseJ fuel (.objectItems (objUpsert acc ⟨kcs⟩ v)) r3
            | '}' :: r3 => some (.obj (objUpsert acc ⟨kcs⟩ v), r3)
            | _ => none
        | _ => none
    | _ => none

/-- Model of Python's json.loads on a string: parse one value and require
that only whitespace follows. -/
def jsonLoads (s : String) : Option Json :=
  match parseJ (2 * s.data.length + 2) .value s.data with
  | some (v, rest) => if skipWs rest = [] then some v else none
  | none => none

/-- Python truthiness test (the not operator) on the values json.loads can
produce. -/
def jsonFalsy : Json → Bool
  | .null => true
  | .bool b => !b
  | .num n => n == 0
  | .str s => s.isEmpty
  | .arr xs => xs.isEmpty
  | .obj kvs => kvs.isEmpty

/-- Python len() on JSON values; TypeError for values without a length. -/
def pyLen : Json → Except PyErr Nat
  | .str s => .ok s.data.length
  | .arr xs => .ok xs.length
  | .obj kvs => .ok kvs.length
  | _ => .error .typeError

/-- Python subscription v[i] with a non-negative integer index. -/
def pyGetItemNat : Json → Nat → Except PyErr Json
  | .arr xs, i =>
    match xs.get? i with
    | some v => .ok v
    | none => .error .indexError
  | .str s, i =>
    match s.data.get? i with
    | some c => .ok (.str ⟨[c]⟩)
    | none => .error .indexError
  | .obj _, _ => .error .keyError
  | _, _ => .error .typeError

/-- Python subscription v[k] with a string key. -/
def pyGetItemStr : Json → String → Except PyErr Json
  | .obj kvs, k =>
    match kvs.find? (fun p => p.1 == k) with
    | some p => .ok p.2
    | none => .error .keyError
  | _, _ => .error .typeError

/-- Python's in operator with a string needle: substring test on strings,
membership on lists, key test on dicts, TypeError otherwise. -/
def jsonContains : Json → String → Except PyErr Bool
  | .str t, needle => .ok (strContains t needle)
  | .arr xs, needle =>
    .ok (xs.any (fun j => match j with | .str t => t == needle | _ => false))
  | .obj kvs, needle => .ok (kvs.any (fun p => p.1 == needle))
  | _, _ => .error .typeError

/-- Digit run accepted by Python's int() after the first digit: underscores
may appear singly between digits. -/
def pyIntTail : List Char → Bool
  | [] => true
  | ['_'] => false
  | '_' :: c :: r => c.isDigit && pyIntTail r
  | c :: r => c.isDigit && pyIntTail r

def pyIntDigitsOk : List Char → Bool
  | [] => false
  | c :: rest => c.isDigit && pyIntTail rest

/-- Model of Python's int(str): optional surrounding whitespace, optional
sign, digits with optional single interior underscores; None models the
ValueError that the script catches. -/
def pyInt (s : String) : Option Int :=
  let cs := ((s.data.dropWhile isPyWs).reverse.dropWhile isPyWs).reverse
  match cs with
  | '+' :: rest =>
    if pyIntDigitsOk rest then some ((digitsVal (rest.filter (fun c => c != '_')) : Nat) : Int)
    else none
  | '-' :: rest =>
    if pyIntDigitsOk rest then some (-(digitsVal (rest.filter (fun c => c != '_')) : Nat))
    else none
  | rest =>
    if pyIntDigitsOk rest then some ((digitsVal (rest.filter (fun c => c != '_')) : Nat) : Int)
    else none

/-- Python user_input.lower().replace(' ', '-'): ASCII lowercasing followed
by replacing every space with a hyphen, and nothing else. -/
def pyLowerHyphen (s : String) : String :=
  ⟨(s.data.map Char.toLower).map (fun c => if c == ' ' then '-' else c)⟩

/-! ## Filesystem and path model (os.path, glob) -/

/-- posixpath.join for two components. -/
def ospath_join (a b : String) : String :=
  if b.data.head? = some '/' then b
  else if a.data = [] ∨ a.data.getLast? = some '/' then a ++ b
  else a ++ "/" ++ b

/-- posixpath.dirname: everything up to the final slash, with trailing
slashes stripped unless the head is all slashes. -/
def ospath_dirname (p : String) : String :=
  if p.data.contains '/' then
    let revIdx := p.data.reverse.findIdx (fun c => c == '/')
    let head := p.data.take (p.data.length - revIdx)
    if head.all (fun c => c == '/') then ⟨head⟩
    else ⟨(head.reverse.dropWhile (fun c => c == '/')).reverse⟩
  else ""

/-- posixpath.expanduser with the given HOME; the ~user form needs the
passwd database and is modelled as returned unchanged (CPython's fallback
when the lookup fails). -/
def pyExpanduser (home p : String) : String :=
  match p.data with
  | '~' :: rest =>
    let uh := (home.data.reverse.dropWhile (fun c => c == '/')).reverse
    if rest = [] then (if uh = [] then "/" else ⟨uh⟩)
    else if rest.head? = some '/' then
      (if uh ++ rest = [] then "/" else ⟨uh ++ rest⟩)
    else p
  | _ => p

/-- The component scan of posixpath.normpath (empty and dot components are
dropped, dotdot pops unless there is nothing to pop). -/
def normComps (hasRoot : Bool) : List String → List String → List String
  | acc, [] => acc.reverse
  | acc, comp :: rest =>
    if comp = "" ∨ comp = "." then normComps hasRoot acc rest
    else if comp ≠ ".." ∨ (hasRoot = false ∧ acc = []) ∨ acc.head? = some ".." then
      normComps hasRoot (comp :: acc) rest
    else
      match acc with
      | _ :: acc2 => normComps hasRoot acc2 rest
      | [] => normComps hasRoot [] rest

/-- posixpath.normpath. -/
def posix_normpath (p : String) : String :=
  if p.data = [] then "."
  else
    let slashes : Nat :=
      if p.data.take 2 = ['/', '/'] ∧ p.data.take 3 ≠ ['/', '/', '/'] then 2
      else if p.data.head? = some '/' then 1
      else 0
    let comps := normComps (slashes != 0) [] (pySplitOn p ("/"))
    let res := (if slashes = 2 then "//" else if slashes = 1 then "/" else "") ++
      String.intercalate ("/") comps
    if res.data = [] then "." else res

/-- posixpath.abspath relative to the given working directory. -/
def os_abspath (cwd p : String) : String :=
  if p.data.head? = some '/' then posix_normpath p
  else posix_normpath (ospath_join cwd p)

/-- The environment the script reads: the entries of the search directory in
scandir order, a modification time for each path, and file contents. -/
structure FS where
  listing : List String
  mtime : String → Int
  content : String → List (Fin 256)

/-- fnmatch translation of the glob pattern SCR-*.png. -/
def fnmatchSCR (name : String) : Bool :=
  ("SCR-").data.isPrefixOf name.data && ("SCR-").data.length + (".png").data.length ≤ name.data.length
    && (".png").data.isSuffixOf name.data

/-- glob.glob(os.path.join(expanduser(search_path), "SCR-*.png")): the
matching entries of the directory, joined back onto the directory part of
the pattern, in listing order. -/
def scrGlob (home : String) (fs : FS) (search_path : String) : List String :=
  let expanded := pyExpanduser home search_path
  let dir := ospath_dirname (ospath_join expanded ("SCR-*.png"))
  (fs.listing.filter fnmatchSCR).map (fun n => ospath_join dir n)

/-- src/main.py get_scr_img_path: None when nothing matches, otherwise the
absolute path of max(files, key=os.path.getmtime).  Python's max keeps the
current element on ties, so the fold replaces the accumulator only on a
strictly larger key. -/
def get_scr_img_path (home cwd : String) (fs : FS) (search_path : String) : Option String :=
  match scrGlob home fs search_path with
  | [] => none
  | f :: rest =>
    some (os_abspath cwd (rest.foldl (fun acc y => if fs.mtime acc < fs.mtime y then y else acc) f))

/-! ## Image encoder and suggestion client -/

def b64Table : List Char :=
  ("ABCDEFGHIJKLMNOPQRSTUVWXYZabcdefghijklmnopqrstuvwxyz0123456789+/").data

def b64c (n : Nat) : Char := b64Table.getD n 'A'

/-- Standard base64 of a byte string (base64.b64encode). -/
def b64encodeBytes : List (Fin 256) → List Char
  | [] => []
  | [a] => [b64c (a.val / 4), b64c (a.val % 4 * 16), '=', '=']
  | [a, b] => [b64c (a.val / 4), b64c (a.val % 4 * 16 + b.val / 16), b64c (b.val % 16 * 4), '=']
  | a :: b :: c :: rest =>
    b64c (a.val / 4) :: b64c (a.val % 4 * 16 + b.val / 16) ::
      b64c (b.val % 16 * 4 + c.val / 64) :: b64c (c.val % 64) :: b64encodeBytes rest

/-- src/main.py encode_image_to_base64: read all bytes and base64 them. -/
def encode_image_to_base64 (fs : FS) (image_path : String) : String :=
  ⟨b64encodeBytes (fs.content image_path)⟩

/-- src/main.py get_screenshot_data_url. -/
def get_screenshot_data_url (home cwd : String) (fs : FS) (search_path : String) : Option String :=
  match get_scr_img_path home cwd fs search_path with
  | some p => some (("data:image/png;base64,") ++ encode_image_to_base64 fs p)
  | none => none

def MODEL_NAME : String := "google/gemma-3-27b-it:free"

def SCR_PATH : String := "~/Downloads/"

def PROMPT_GEN_FILENAME : String :=
  "\nYou are an AI tasked with generating a concise, meaningful filename for a screenshot. Analyze the content of the screenshot and create a filename that:\n- Reflects the main subject or purpose of the screenshot.\n- Uses all lowercase letters.\n- Separates words with hyphens (\"-\").\n- Is brief (aim for 3-5 words, max 30 characters).\n- Avoids special characters unless essential.\n- Output at least two options but no more then four options.\n- Output format is json, nothing but json. Do NOT put reasonings in the output.\nExample: For a screenshot of a login page, the filename might be \"login-page\" or \"login-new-user\". The output looks like:\n\x7b\n    \"filenames\": [\"login-page\", \"login-new-user\"]\n\x7d\nBased on the provided screenshot, generate a single filename that meets these criteria.\n"

/-- The messages list of the chat request built in llm_gen_filename. -/
def mkMessages (data_url : String) : Json :=
  .arr [.obj [("role", .str ("user")),
              ("content", .arr [.obj [("type", .str ("text")), ("text", .str PROMPT_GEN_FILENAME)],
                                .obj [("type", .str ("image_url")),
                                      ("image_url", .obj [("url", .str data_url)])]])]]

/-- The JSON body POSTed to the chat-completions endpoint. -/
def mkPayload (data_url : String) : Json :=
  .obj [("model", .str MODEL_NAME), ("messages", mkMessages data_url)]

/-- src/main.py llm_gen_filename.  The network is modelled by the function
post (payload to parsed response); the second component records every
payload actually sent, so the no-request short-circuit is observable. -/
def llm_gen_filename (post : Json → Json) (home cwd : String) (fs : FS)
    (search_path : String) : Option Json × List Json :=
  match get_screenshot_data_url home cwd fs search_path with
  | none => (none, [])
  | some du => (some (post (mkPayload du)), [mkPayload du])

/-! ## Response parser (extract_filenames) -/

/-- content.split('```json')[1].split('```')[0]; the attribute lookup
content.split raises AttributeError on a non-string. -/
def stripTagged : Json → Except PyErr Json
  | .str s =>
    match (pySplitOn s ("```json")).get? 1 with
    | none => .error .indexError
    | some seg =>
      match (pySplitOn seg ("```")).get? 0 with
      | none => .error .indexError
      | some seg2 => .ok (.str seg2)
  | _ => .error .attributeError

/-- content.split('```')[1].split('```')[0] (the bare-fence branch). -/
def stripBare : Json → Except PyErr Json
  | .str s =>
    match (pySplitOn s ("```")).get? 1 with
    | none => .error .indexError
    | some seg =>
      match (pySplitOn seg ("```")).get? 0 with
      | none => .error .indexError
      | some seg2 => .ok (.str seg2)
  | _ => .error .attributeError

/-- The fence-removal conditional of extract_filenames (lines 93-96). -/
def fenceStrip (content : Json) : Except PyErr Json :=
  match jsonContains content ("```json") with
  | .error e => .error e
  | .ok true => stripTagged content
  | .ok false =>
    match jsonContains content ("```") with
    | .error e => .error e
    | .ok true => stripBare content
    | .ok false => .ok content

/-- content.strip(): AttributeError on a non-string. -/
def pyStripJson : Json → Except PyErr String
  | .str s => .ok (pyStrip s)
  | _ => .error .attributeError

/-- The body of the try block of extract_filenames (lines 91-100). -/
def extractTryBody (llm_response : Json) : Except PyErr Json :=
  match pyGetItemStr llm_response ("choices") with
  | .error e => .error e
  | .ok choices =>
    match pyGetItemNat choices 0 with
    | .error e => .error e
    | .ok first =>
      match pyGetItemStr first ("message") with
      | .error e => .error e
      | .ok message =>
        match pyGetItemStr message ("content") with
        | .error e => .error e
        | .ok content =>
          match fenceStrip content with
          | .error e => .error e
          | .ok content2 =>
            match pyStripJson content2 with
            | .error e => .error e
            | .ok stripped =>
              match jsonLoads stripped with
              | some v => .ok v
              | none => .error .jsonDecodeError

/-- src/main.py extract_filenames.  The argument none models the Python
value None; the try/except absorbs exactly KeyError, IndexError and
json.JSONDecodeError, every other exception propagates. -/
def extract_filenames (llm_response : Option Json) : Except PyErr (Option Json) :=
  match llm_response with
  | none => .ok none
  | some j =>
    if jsonFalsy j then .ok none
    else
      match jsonContains j ("choices") with
      | .error e => .error e
      | .ok false => .ok none
      | .ok true =>
        match extractTryBody j with
        | .ok v => .ok (some v)
        | .error .keyError => .ok none
        | .error .indexError => .ok none
        | .error .jsonDecodeError => .ok none
        | .error e => .error e

/-! ## Interactive selector (select_filename) -/

/-- The one blocking console read: either a line of input or a
KeyboardInterrupt raised while reading. -/
inductive UserInput where
  | line (s : String)
  | interrupt

/-- The body of the try block of select_filename (lines 119-136): build the
prompt (which calls len), read, strip, and dispatch on the stripped text. -/
def selectTry (filenames : Json) (inp : UserInput) : Except PyErr Json :=
  match pyLen filenames with
  | .error e => .error e
  | .ok n =>
    match inp with
    | .interrupt => .error .keyboardInterrupt
    | .line raw =>
      let user_input := pyStrip raw
      if user_input.isEmpty then pyGetItemNat filenames 0
      else
        match pyInt user_input with
        | some k =>
          if 1 ≤ k ∧ k ≤ (n : Int) then pyGetItemNat filenames (k - 1).toNat
          else pyGetItemNat filenames 0
        | none => .ok (.str (pyLowerHyphen user_input))

/-- src/main.py select_filename.  The numbered display loop iterates the
candidate value before the try block (so an unindexable value raises there),
and the except clause catching ValueError and KeyboardInterrupt returns
filenames[0]. -/
def select_filename (filenames_dict : Option Json) (inp : UserInput) : Except PyErr (Option Json) :=
  match filenames_dict with
  | none => .ok none
  | some j =>
    if jsonFalsy j then .ok none
    else
      match jsonContains j ("filenames") with
      | .error e => .error e
      | .ok false => .ok none
      | .ok true =>
        match pyGetItemStr j ("filenames") with
        | .error e => .error e
        | .ok filenames =>
          if jsonFalsy filenames then .ok none
          else
            match pyLen filenames with
            | .error e => .error e
            | .ok _ =>
              match selectTry filenames inp with
              | .ok v => .ok (some v)
              | .error .keyboardInterrupt =>
                match pyGetItemNat filenames 0 with
                | .ok v => .ok (some v)
                | .error e => .error e
              | .error .valueError =>
                match pyGetItemNat filenames 0 with
                | .ok v => .ok (some v)
                | .error e => .error e
              | .error e => .error e

/-- A parsed response of the canonical shape produced by the chat API, with
the given message content. -/
def mkLLMResponse (content : Json) : Json :=
  .obj [("choices", .arr [.obj [("message", .obj [("content", content)])]])]

/-- A parsed filenames object holding the given candidate list. -/
def mkFilenamesDict (l : List Json) : Json :=
  .obj [("filenames", .arr l)]

/-! ## Compressor (compress_image_webp) -/

/-- The world compress_image_webp touches: the exit status of a shell
command and os.path.getsize. -/
structure Sys where
  runExit : String → Nat
  getsize : String → Nat

/-- What one call of compress_image_webp did: its return value, the shell
commands it ran, the compression ratio it reported, and whether it printed
the conversion-error message. -/
structure CompressOutcome where
  result : Option String
  commands : List String
  reportedRatio : Option ℚ
  printedError : Bool
deriving DecidableEq, Repr

/-- Python falsiness of the two string-or-None arguments. -/
def optFalsy : Option String → Bool
  | none => true
  | some s => s.isEmpty

/-- CWEBP_CLI_TEMPLATE.format(input=..., output=...). -/
def cwebpCommand (input output : String) : String :=
  ("cwebp -q 80 ") ++ input ++ (" -o ") ++ output

/-- os.path.join(os.path.dirname(image_path), selected_filename + ".webp"). -/
def outputPath (image_path selected_filename : String) : String :=
  ospath_join (ospath_dirname image_path) (selected_filename ++ (".webp"))

/-- The percentage size reduction exactly as the specification words it:
(1 - output_size/input_size) * 100. -/
def specCompressionRatio (input_size output_size : Nat) : ℚ :=
  (1 - (output_size : ℚ) / (input_size : ℚ)) * 100

/-- src/main.py compress_image_webp.  Division is exact (ℚ) where Python
uses floats; a zero input size raises ZeroDivisionError, uncaught because the
except clause only covers subprocess.CalledProcessError. -/
def compress_image_webp (sys : Sys) (image_path selected_filename : Option String) :
    Except PyErr CompressOutcome :=
  if optFalsy image_path || optFalsy selected_filename then
    .ok ⟨none, [], none, false⟩
  else
    let ip := image_path.getD ""
    let sf := selected_filename.getD ""
    let output_path := outputPath ip sf
    let input_size := sys.getsize ip
    let command := cwebpCommand ip output_path
    if sys.runExit command ≠ 0 then
      .ok ⟨none, [command], none, true⟩
    else
      let output_size := sys.getsize output_path
      if input_size = 0 then .error .zeroDivisionError
      else .ok ⟨some output_path, [command], some ((1 - (output_size : ℚ) / (input_size : ℚ)) * 100), false⟩

/-! ## Concrete environments used to exercise the theorems -/

/-- The backtick character (written by code point to keep it out of the
source text outside strings). -/
def btick : Char := Char.ofNat 96

def fsDemo : FS :=
  ⟨["a.txt", "SCR-1.png", "SCR-2.png"],
   fun p => if p = "/h/Downloads/SCR-2.png" then 10 else 1,
   fun _ => [77, 97, 110]⟩

def fsEmptyDir : FS := ⟨[], fun _ => 0, fun _ => []⟩

def fsTie : FS := ⟨["SCR-a.png", "SCR-b.png"], fun _ => 5, fun _ => []⟩

def sysFail : Sys := ⟨fun _ => 1, fun _ => 100⟩

def sysOk : Sys := ⟨fun _ => 0, fun p => if p = "a/in.png" then 1000 else 600⟩

def demoCandidates : List Json := [Json.str ("login-page"), Json.str ("login-new-user")]

def postNull : Json → Json := fun _ => Json.null

/-! ## Lemmas about occurrence search and splitting -/

theorem isPrefixOf_append_left (l r : List Char) : l.isPrefixOf (l ++ r) = true := by
  induction l with
  | nil => cases r <;> rfl
  | cons a as ih => simp [List.isPrefixOf, ih]

theorem listSplitOnce_of_isPrefixOf {sep s : List Char} (h : sep.isPrefixOf s = true) :
    listSplitOnce sep s = some ([], s.drop sep.length) := by
  cases s with
  | nil => simp [listSplitOnce, h]
  | cons c cs => simp [listSplitOnce, h]

theorem listSplitOnce_append_self (sep r : List Char) :
    listSplitOnce sep (sep ++ r) = some ([], r) := by
  rw [listSplitOnce_of_isPrefixOf (isPrefixOf_append_left sep r)]
  simp

theorem listSplitOnce_clean_append {sep : List Char} (hsep : sep.head? = some btick)
    (mid : List Char) (hmid : ∀ c ∈ mid, ¬ c = btick) {t : List Char}
    (ht : listSplitOnce sep t = none) : listSplitOnce sep (mid ++ t) = none := by
  obtain ⟨s0, rfl⟩ : ∃ s0, sep = btick :: s0 := by
    cases sep with
    | nil => simp at hsep
    | cons a as =>
      simp only [List.head?] at hsep
      exact ⟨as, by rw [Option.some_inj.mp hsep]⟩
  induction mid with
  | nil => simpa using ht
  | cons c cs ih =>
    have hc : ¬ c = btick := hmid c (by simp)
    have hpre : (btick :: s0).isPrefixOf (c :: (cs ++ t)) = false := by
      simp only [List.isPrefixOf, Bool.and_eq_false_iff]
      left
      exact beq_eq_false_iff_ne.mpr (fun h => hc h.symm)
    have ihcs := ih (fun x hx => hmid x (by simp [hx]))
    rw [List.cons_append]
    simp [listSplitOnce, hpre, ihcs]

theorem listSplitOnce_clean_find {sep : List Char} (hsep : sep.head? = some btick)
    (mid : List Char) (hmid : ∀ c ∈ mid, ¬ c = btick) (r : List Char) :
    listSplitOnce sep (mid ++ (sep ++ r)) = some (mid, r) := by
  obtain ⟨s0, rfl⟩ : ∃ s0, sep = btick :: s0 := by
    cases sep with
    | nil => simp at hsep
    | cons a as =>
      simp only [List.head?] at hsep
      exact ⟨as, by rw [Option.some_inj.mp hsep]⟩
  induction mid with
  | nil => simpa using listSplitOnce_append_self (btick :: s0) r
  | cons c cs ih =>
    have hc : ¬ c = btick := hmid c (by simp)
    have hpre : (btick :: s0).isPrefixOf (c :: (cs ++ ((btick :: s0) ++ r))) = false := by
      simp only [List.isPrefixOf, Bool.and_eq_false_iff]
      left
      exact beq_eq_false_iff_ne.mpr (fun h => hc h.symm)
    have ihcs := ih (fun x hx => hmid x (by simp [hx]))
    rw [List.cons_append]
    simp only [listSplitOnce, hpre]
    simp only [List.cons_append] at ihcs
    simp [ihcs]

theorem listSplitOnGo_none {sep s : List Char} (h : listSplitOnce sep s = none)
    {n : Nat} (hn : 0 < n) : listSplitOnGo n sep s = [s] := by
  cases n with
  | zero => omega
  | succ m => simp [listSplitOnGo, h]

theorem listSplitOnGo_step {sep s pre post : List Char}
    (h : listSplitOnce sep s = some (pre, post)) {n : Nat} (hn : 0 < n) :
    listSplitOnGo n sep s = pre :: listSplitOnGo (n - 1) sep post := by
  cases n with
  | zero => omega
  | succ m => simp [listSplitOnGo, h]

theorem strData_append (s t : String) : (s ++ t).data = s.data ++ t.data := rfl

theorem strMk_data (s : String) : (⟨s.data⟩ : String) = s := rfl

theorem tag_head : ("```json" : String).data.head? = some btick := rfl

theorem bare_head : ("```" : String).data.head? = some btick := rfl

/-! ## Fence-stripping lemmas for extract_filenames -/

theorem tagged_data (mid : String) : (("```json" ++ mid ++ "```") : String).data
    = ("```json" : String).data ++ (mid.data ++ ("```" : String).data) := by
  rw [strData_append, strData_append, List.append_assoc]

theorem bare_data (mid : String) : (("```" ++ mid ++ "```") : String).data
    = ("```" : String).data ++ (mid.data ++ (("```" : String).data ++ [])) := by
  rw [strData_append, strData_append, List.append_assoc, List.append_nil]

theorem pySplitOn_tagged (mid : String) (hmid : ∀ c ∈ mid.data, ¬ c = btick) :
    pySplitOn (("```json") ++ mid ++ ("```")) ("```json") = ["", mid ++ ("```")] := by
  unfold pySplitOn
  rw [tagged_data]
  rw [listSplitOnGo_step (listSplitOnce_append_self _ _) (by omega)]
  rw [listSplitOnGo_none (listSplitOnce_clean_append tag_head mid.data hmid (by rfl))
    (by simp [List.length_append])]
  rfl

theorem pySplitOn_clean_sep (mid : String) (hmid : ∀ c ∈ mid.data, ¬ c = btick) :
    pySplitOn (mid ++ ("```")) ("```") = [mid, ""] := by
  unfold pySplitOn
  have hdata : ((mid ++ "```") : String).data = mid.data ++ (("```" : String).data ++ []) := by
    rw [strData_append, List.append_nil]
  rw [hdata]
  rw [listSplitOnGo_step (listSplitOnce_clean_find bare_head mid.data hmid []) (by omega)]
  rw [listSplitOnGo_none (rfl : listSplitOnce ("```" : String).data ([] : List Char) = none)
    (by simp [List.length_append])]
  rfl

theorem pySplitOn_bare (mid : String) (hmid : ∀ c ∈ mid.data, ¬ c = btick) :
    pySplitOn (("```") ++ mid ++ ("```")) ("```") = ["", mid, ""] := by
  unfold pySplitOn
  rw [bare_data]
  rw [listSplitOnGo_step (listSplitOnce_append_self _ _) (by omega)]
  rw [listSplitOnGo_step (listSplitOnce_clean_find bare_head mid.data hmid [])
    (by simp [List.length_append])]
  rw [listSplitOnGo_none (rfl : listSplitOnce ("```" : String).data ([] : List Char) = none)
    (by simp [List.length_append])]
  rfl

theorem pySplitOn_clean_only (mid : String) (hmid : ∀ c ∈ mid.data, ¬ c = btick) :
    pySplitOn mid ("```") = [mid] := by
  unfold pySplitOn
  have h : listSplitOnce ("```" : String).data mid.data = none := by
    have h0 := listSplitOnce_clean_append bare_head mid.data hmid
      (t := []) (by rfl)
    simpa using h0
  rw [listSplitOnGo_none h (by omega)]
  rfl

theorem strContains_tagged (mid : String) :
    strContains (("```json") ++ mid ++ ("```")) ("```json") = true := by
  unfold strContains
  rw [tagged_data, listSplitOnce_append_self]
  rfl

theorem strContains_bare (mid : String) :
    strContains (("```") ++ mid ++ ("```")) ("```") = true := by
  unfold strContains
  rw [bare_data, listSplitOnce_append_self]
  rfl

theorem stripTagged_str (s : String) :
    stripTagged (.str s) =
      (match (pySplitOn s ("```json")).get? 1 with
       | none => .error PyErr.indexError
       | some seg =>
         match (pySplitOn seg ("```")).get? 0 with
         | none => .error PyErr.indexError
         | some seg2 => .ok (.str seg2)) := rfl

theorem stripBare_str (s : String) :
    stripBare (.str s) =
      (match (pySplitOn s ("```")).get? 1 with
       | none => .error PyErr.indexError
       | some seg =>
         match (pySplitOn seg ("```")).get? 0 with
         | none => .error PyErr.indexError
         | some seg2 => .ok (.str seg2)) := rfl

theorem fenceStrip_tagged (mid : String) (hmid : ∀ c ∈ mid.data, ¬ c = btick) :
    fenceStrip (.str (("```json") ++ mid ++ ("```"))) = .ok (.str mid) := by
  unfold fenceStrip
  simp only [jsonContains, strContains_tagged]
  rw [stripTagged_str, pySplitOn_tagged mid hmid]
  simp only [List.get?]
  rw [pySplitOn_clean_sep mid hmid]
  rfl

theorem fenceStrip_bareCase (mid : String) (hmid : ∀ c ∈ mid.data, ¬ c = btick)
    (hno : strContains (("```") ++ mid ++ ("```")) ("```json") = false) :
    fenceStrip (.str (("```") ++ mid ++ ("```"))) = .ok (.str mid) := by
  unfold fenceStrip
  simp only [jsonContains, hno, strContains_bare]
  rw [stripBare_str, pySplitOn_bare mid hmid]
  simp only [List.get?]
  rw [pySplitOn_clean_only mid hmid]
  rfl

theorem fenceStrip_nofence (s : String) (h1 : strContains s ("```json") = false)
    (h2 : strContains s ("```") = false) :
    fenceStrip (.str s) = .ok (.str s) := by
  unfold fenceStrip
  simp [jsonContains, h1, h2]

theorem extractTryBody_mkResp (content : Json) :
    extractTryBody (mkLLMResponse content) =
      (match fenceStrip content with
       | .error e => .error e
       | .ok content2 =>
         match pyStripJson content2 with
         | .error e => .error e
         | .ok stripped =>
           match jsonLoads stripped with
           | some v => .ok v
           | none => .error PyErr.jsonDecodeError) := rfl

theorem extract_filenames_mkResp (content : Json) :
    extract_filenames (some (mkLLMResponse content)) =
      (match extractTryBody (mkLLMResponse content) with
       | .ok v => .ok (some v)
       | .error .keyError => .ok none
       | .error .indexError => .ok none
       | .error .jsonDecodeError => .ok none
       | .error e => .error e) := rfl

/-- Claim C2: for every API response whose nested message content is a JSON
object wrapped in a markdown code fence (language-tagged or bare), the
parser strips the fence and returns the parsed structure. -/
theorem claim_C2 (mid : String) (v : Json) (hmid : ∀ c ∈ mid.data, ¬ c = btick)
    (hv : jsonLoads (pyStrip mid) = some v) :
    extract_filenames (some (mkLLMResponse (Json.str (("```json") ++ mid ++ ("```"))))) = .ok (some v)
    ∧ (strContains (("```") ++ mid ++ ("```")) ("```json") = false →
        extract_filenames (some (mkLLMResponse (Json.str (("```") ++ mid ++ ("```"))))) = .ok (some v)) := by
  refine ⟨?_, fun hno => ?_⟩
  · rw [extract_filenames_mkResp, extractTryBody_mkResp, fenceStrip_tagged mid hmid]
    simp [pyStripJson, hv]
  · rw [extract_filenames_mkResp, extractTryBody_mkResp, fenceStrip_bareCase mid hmid hno]
    simp [pyStripJson, hv]

/-- Witness for claim C2 at the spec's example content, in both fence
forms. -/
theorem claim_C2_witness :
    extract_filenames (some (mkLLMResponse (Json.str (("```json") ++ ("\n\x7b\"filenames\":[\"a\",\"b\"]\x7d\n") ++ ("```")))))
      = .ok (some (Json.obj [("filenames", Json.arr [Json.str ("a"), Json.str ("b")])]))
    ∧ extract_filenames (some (mkLLMResponse (Json.str (("```") ++ ("\n\x7b\"filenames\":[\"a\",\"b\"]\x7d\n") ++ ("```")))))
      = .ok (some (Json.obj [("filenames", Json.arr [Json.str ("a"), Json.str ("b")])])) := by
  have h := claim_C2 ("\n\x7b\"filenames\":[\"a\",\"b\"]\x7d\n")
    (Json.obj [("filenames", Json.arr [Json.str ("a"), Json.str ("b")])])
    (by decide) (by rfl)
  exact ⟨h.1, h.2 (by rfl)⟩

/-! ## Response-parser error contract (claims C5 and C10) -/

theorem extract_filenames_some (j : Json) :
    extract_filenames (some j) =
      (if jsonFalsy j then .ok none
       else
         match jsonContains j ("choices") with
         | .error e => .error e
         | .ok false => .ok none
         | .ok true =>
           match extractTryBody j with
           | .ok v => .ok (some v)
           | .error .keyError => .ok none
           | .error .indexError => .ok none
           | .error .jsonDecodeError => .ok none
           | .error e => .error e) := rfl

/-- Counterexample to claim C5: a truthy response with no choices key
(here the parsed JSON number 5) makes the membership test itself raise
TypeError, which propagates out of the parser instead of yielding None. -/
theorem claim_C5_counterexample :
    extract_filenames (some (Json.num 5)) = .error PyErr.typeError
    ∧ ¬ extract_filenames (some (Json.num 5)) = .ok none := by
  refine ⟨rfl, fun h => ?_⟩
  rw [show extract_filenames (some (Json.num 5)) = .error PyErr.typeError from rfl] at h
  exact Except.noConfusion h

/-- Claim C5 (amended): the parser returns None for an absent or falsy
response, for a response not containing the choices key, and whenever the
extraction body fails with KeyError, IndexError or JSONDecodeError; other
exceptions (TypeError, AttributeError from unexpectedly-typed fields)
propagate. -/
theorem claim_C5_amended :
    extract_filenames none = .ok none
    ∧ (∀ j, jsonFalsy j = true → extract_filenames (some j) = .ok none)
    ∧ (∀ j, jsonFalsy j = false → jsonContains j ("choices") = .ok false →
        extract_filenames (some j) = .ok none)
    ∧ (∀ j e, jsonFalsy j = false → jsonContains j ("choices") = .ok true →
        extractTryBody j = .error e →
        (e = PyErr.keyError ∨ e = PyErr.indexError ∨ e = PyErr.jsonDecodeError) →
        extract_filenames (some j) = .ok none) := by
  refine ⟨rfl, fun j hf => ?_, fun j hf hc => ?_, fun j e hf hc ht he => ?_⟩
  · rw [extract_filenames_some, if_pos hf]
  · rw [extract_filenames_some, if_neg (by simp [hf]), hc]
  · rw [extract_filenames_some, if_neg (by simp [hf]), hc, ht]
    rcases he with rfl | rfl | rfl <;> rfl

/-- Witness for the amended claim C5: an empty-object response, an object
without choices, and a well-shaped response whose content is not JSON. -/
theorem claim_C5_amended_witness :
    extract_filenames (some (Json.obj [])) = .ok none
    ∧ extract_filenames (some (Json.obj [("id", Json.null)])) = .ok none
    ∧ extract_filenames (some (mkLLMResponse (Json.str ("not json")))) = .ok none := by
  have h := claim_C5_amended
  exact ⟨h.2.1 (Json.obj []) rfl,
         h.2.2.1 (Json.obj [("id", Json.null)]) rfl rfl,
         h.2.2.2 (mkLLMResponse (Json.str ("not json"))) PyErr.jsonDecodeError rfl rfl rfl
           (Or.inr (Or.inr rfl))⟩

theorem pyGetItemStr_obj (kvs : List (String × Json)) (k : String) :
    pyGetItemStr (Json.obj kvs) k =
      (match kvs.find? (fun p => p.1 == k) with
       | some p => .ok p.2
       | none => .error PyErr.keyError) := rfl

theorem select_filename_some (j : Json) (inp : UserInput) :
    select_filename (some j) inp =
      (if jsonFalsy j then .ok none
       else
         match jsonContains j ("filenames") with
         | .error e => .error e
         | .ok false => .ok none
         | .ok true =>
           match pyGetItemStr j ("filenames") with
           | .error e => .error e
           | .ok filenames =>
             if jsonFalsy filenames then .ok none
             else
               match pyLen filenames with
               | .error e => .error e
               | .ok _ =>
                 match selectTry filenames inp with
                 | .ok v => .ok (some v)
                 | .error .keyboardInterrupt =>
                   match pyGetItemNat filenames 0 with
                   | .ok v => .ok (some v)
                   | .error e => .error e
                 | .error .valueError =>
                   match pyGetItemNat filenames 0 with
                   | .ok v => .ok (some v)
                   | .error e => .error e
                 | .error e => .error e) := rfl

/-- Claim C10: after fence handling, a content string that parses as JSON is
returned as parsed, with no check for a filenames key; an object lacking the
key, or holding an empty filenames list, is only turned into None by the
selector. -/
theorem claim_C10 :
    (∀ (content : String) (v : Json), strContains content ("```json") = false →
      strContains content ("```") = false → jsonLoads (pyStrip content) = some v →
      extract_filenames (some (mkLLMResponse (Json.str content))) = .ok (some v))
    ∧ (∀ (kvs : List (String × Json)) (inp : UserInput),
        jsonContains (Json.obj kvs) ("filenames") = .ok false →
        select_filename (some (Json.obj kvs)) inp = .ok none)
    ∧ (∀ (kvs : List (String × Json)) (inp : UserInput),
        pyGetItemStr (Json.obj kvs) ("filenames") = .ok (Json.arr []) →
        select_filename (some (Json.obj kvs)) inp = .ok none) := by
  refine ⟨fun content v h1 h2 hv => ?_, fun kvs inp hc => ?_, fun kvs inp hg => ?_⟩
  · rw [extract_filenames_mkResp, extractTryBody_mkResp, fenceStrip_nofence content h1 h2]
    simp [pyStripJson, hv]
  · cases kvs with
    | nil => rfl
    | cons p ps =>
      rw [select_filename_some, if_neg (by simp [jsonFalsy]), hc]
  · cases hfind : kvs.find? (fun p => p.1 == ("filenames" : String)) with
    | none =>
      exfalso
      rw [pyGetItemStr_obj, hfind] at hg
      exact Except.noConfusion hg
    | some p =>
      have hpred : (p.1 == ("filenames" : String)) = true := by
        have h0 := List.find?_some hfind
        simpa using h0
      have hmem : p ∈ kvs := List.mem_of_find?_eq_some hfind
      have hany : kvs.any (fun q => q.1 == ("filenames" : String)) = true :=
        List.any_eq_true.mpr ⟨p, hmem, hpred⟩
      have hfalsy : jsonFalsy (Json.obj kvs) = false := by
        cases kvs with
        | nil => simp at hmem
        | cons a as => rfl
      rw [select_filename_some, if_neg (by simp [hfalsy])]
      have hcont : jsonContains (Json.obj kvs) ("filenames") = .ok true := by
        simp [jsonContains, hany]
      rw [hcont, hg]
      rfl

/-- Witness for claim C10: a parsed array passes through the parser
unchecked; the selector rejects a keyless object and an empty list. -/
theorem claim_C10_witness :
    extract_filenames (some (mkLLMResponse (Json.str ("[1, 2]"))))
      = .ok (some (Json.arr [Json.num 1, Json.num 2]))
    ∧ select_filename (some (Json.obj [("other", Json.null)])) (.line ("")) = .ok none
    ∧ select_filename (some (Json.obj [("filenames", Json.arr [])])) (.line ("")) = .ok none := by
  have h := claim_C10
  exact ⟨h.1 ("[1, 2]") (Json.arr [Json.num 1, Json.num 2]) rfl rfl rfl,
         h.2.1 [("other", Json.null)] (.line ("")) rfl,
         h.2.2 [("filenames", Json.arr [])] (.line ("")) rfl⟩

/-! ## Interactive selector (claims C3 and C4) -/

theorem select_filename_dict (l : List Json) (hl : l ≠ []) (inp : UserInput) :
    select_filename (some (mkFilenamesDict l)) inp =
      (match selectTry (Json.arr l) inp with
       | .ok v => .ok (some v)
       | .error .keyboardInterrupt =>
         match pyGetItemNat (Json.arr l) 0 with
         | .ok v => .ok (some v)
         | .error e => .error e
       | .error .valueError =>
         match pyGetItemNat (Json.arr l) 0 with
         | .ok v => .ok (some v)
         | .error e => .error e
       | .error e => .error e) := by
  obtain ⟨x, xs, rfl⟩ : ∃ x xs, l = x :: xs := by
    cases l with
    | nil => exact absurd rfl hl
    | cons x xs => exact ⟨x, xs, rfl⟩
  rfl

theorem selectTry_arr (l : List Json) (inp : UserInput) :
    selectTry (Json.arr l) inp =
      (match inp with
       | .interrupt => .error .keyboardInterrupt
       | .line raw =>
         if (pyStrip raw).isEmpty then pyGetItemNat (Json.arr l) 0
         else
           match pyInt (pyStrip raw) with
           | some k =>
             if 1 ≤ k ∧ k ≤ (l.length : Int) then pyGetItemNat (Json.arr l) (k - 1).toNat
             else pyGetItemNat (Json.arr l) 0
           | none => .ok (.str (pyLowerHyphen (pyStrip raw)))) := rfl

theorem pyInt_empty : pyInt ("") = none := rfl

theorem pyStrip_isEmpty_of_eq {s : String} (h : pyStrip s = "") : (pyStrip s).isEmpty = true := by
  rw [h]; rfl

theorem pyStrip_isEmpty_false_of_pyInt {s : String} {k : Int}
    (h : pyInt (pyStrip s) = some k) : (pyStrip s).isEmpty = false := by
  cases he : (pyStrip s).isEmpty with
  | false => rfl
  | true =>
    exfalso
    rw [(String.isEmpty_iff (pyStrip s)).mp he, pyInt_empty] at h
    exact Option.noConfusion h

/-- Claim C3: with a non-empty candidate list, empty input picks candidate 1,
an in-range integer k picks candidate k (1-indexed), an out-of-range integer
falls back to candidate 1, and a KeyboardInterrupt during the read falls
back to candidate 1. -/
theorem claim_C3 (l : List Json) (hl : l ≠ []) :
    (∀ s, pyStrip s = "" →
      select_filename (some (mkFilenamesDict l)) (.line s) = .ok l.head?)
    ∧ (∀ s k, pyInt (pyStrip s) = some k → 1 ≤ k → k ≤ (l.length : Int) →
        select_filename (some (mkFilenamesDict l)) (.line s) = .ok (l.get? (k - 1).toNat))
    ∧ (∀ s k, pyInt (pyStrip s) = some k → (k < 1 ∨ (l.length : Int) < k) →
        select_filename (some (mkFilenamesDict l)) (.line s) = .ok l.head?)
    ∧ select_filename (some (mkFilenamesDict l)) .interrupt = .ok l.head? := by
  obtain ⟨x, xs, rfl⟩ : ∃ x xs, l = x :: xs := by
    cases l with
    | nil => exact absurd rfl hl
    | cons x xs => exact ⟨x, xs, rfl⟩
  refine ⟨fun s hs => ?_, fun s k hk h1 h2 => ?_, fun s k hk hout => ?_, ?_⟩
  · rw [select_filename_dict _ hl, selectTry_arr]
    simp only [pyStrip_isEmpty_of_eq hs, if_true]
    rfl
  · rw [select_filename_dict _ hl, selectTry_arr]
    simp only [pyStrip_isEmpty_false_of_pyInt hk, Bool.false_eq_true, if_false, hk]
    rw [if_pos ⟨h1, h2⟩]
    have hlt : (k - 1).toNat < (x :: xs).length := by
      simp only [List.length_cons] at h2 ⊢
      omega
    have hget := List.get?_eq_get hlt
    simp only [pyGetItemNat, hget]
  · rw [select_filename_dict _ hl, selectTry_arr]
    simp only [pyStrip_isEmpty_false_of_pyInt hk, Bool.false_eq_true, if_false, hk]
    rw [if_neg (by omega)]
    rfl
  · rw [select_filename_dict _ hl, selectTry_arr]
    rfl

/-- Witness for claim C3: the spec's two-candidate list under empty input,
input " 2 ", out-of-range input "3", and an interrupt. -/
theorem claim_C3_witness :
    select_filename (some (mkFilenamesDict demoCandidates)) (.line (""))
      = .ok (some (Json.str ("login-page")))
    ∧ select_filename (some (mkFilenamesDict demoCandidates)) (.line (" 2 "))
      = .ok (some (Json.str ("login-new-user")))
    ∧ select_filename (some (mkFilenamesDict demoCandidates)) (.line ("3"))
      = .ok (some (Json.str ("login-page")))
    ∧ select_filename (some (mkFilenamesDict demoCandidates)) .interrupt
      = .ok (some (Json.str ("login-page"))) := by
  have h := claim_C3 demoCandidates (by simp [demoCandidates])
  exact ⟨h.1 ("") rfl,
         h.2.1 (" 2 ") 2 rfl (by omega) (by decide),
         h.2.2.1 ("3") 3 rfl (Or.inr (by decide)),
         h.2.2.2⟩

/-- Claim C4: a non-integer, non-empty input is used verbatim as a custom
filename, transformed only by lowercasing and replacing spaces with
hyphens. -/
theorem claim_C4 (l : List Json) (hl : l ≠ []) (s : String) (hne : pyStrip s ≠ "")
    (hni : pyInt (pyStrip s) = none) :
    select_filename (some (mkFilenamesDict l)) (.line s)
      = .ok (some (Json.str (pyLowerHyphen (pyStrip s)))) := by
  have hie : (pyStrip s).isEmpty = false := by
    cases he : (pyStrip s).isEmpty with
    | false => rfl
    | true => exact absurd ((String.isEmpty_iff (pyStrip s)).mp he) hne
  rw [select_filename_dict _ hl, selectTry_arr]
  simp only [hie, Bool.false_eq_true, if_false, hni]

/-- Witness for claim C4 at the spec's example input. -/
theorem claim_C4_witness :
    select_filename (some (mkFilenamesDict demoCandidates)) (.line ("My Custom Name"))
      = .ok (some (Json.str ("my-custom-name"))) := by
  have h := claim_C4 demoCandidates (by simp [demoCandidates]) ("My Custom Name")
    (by decide) rfl
  exact h

/-! ## File locator (claims C1 and C9) -/

theorem foldlPyMax_mem (key : String → Int) (x : String) (xs : List String) :
    xs.foldl (fun acc y => if key acc < key y then y else acc) x ∈ x :: xs := by
  induction xs generalizing x with
  | nil => simp
  | cons y ys ih =>
    simp only [List.foldl]
    by_cases h : key x < key y
    · simp only [if_pos h]
      exact List.mem_cons_of_mem x (ih y)
    · simp only [if_neg h]
      rcases List.mem_cons.mp (ih x) with h1 | h1
      · rw [h1]; exact List.mem_cons_self x (y :: ys)
      · exact List.mem_cons_of_mem x (List.mem_cons_of_mem y h1)

theorem foldlPyMax_ge (key : String → Int) (x : String) (xs : List String) :
    ∀ g ∈ x :: xs, key g ≤ key (xs.foldl (fun acc y => if key acc < key y then y else acc) x) := by
  induction xs generalizing x with
  | nil =>
    intro g hg
    rcases List.mem_cons.mp hg with rfl | hg2
    · exact le_refl _
    · simp at hg2
  | cons y ys ih =>
    intro g hg
    simp only [List.foldl]
    by_cases h : key x < key y
    · simp only [if_pos h]
      rcases List.mem_cons.mp hg with rfl | hg2
      · exact le_trans (le_of_lt h) (ih y y (List.mem_cons_self y ys))
      · exact ih y g hg2
    · simp only [if_neg h]
      rcases List.mem_cons.mp hg with rfl | hg2
      · exact ih g g (List.mem_cons_self g ys)
      · rcases List.mem_cons.mp hg2 with rfl | hg3
        · exact le_trans (le_of_not_lt h) (ih x x (List.mem_cons_self x ys))
        · exact ih x g (List.mem_cons_of_mem x hg3)

/-- Claim C1: the locator yields nothing exactly on an empty match list, and
otherwise the absolute path of a matching file of maximal modification
time. -/
theorem claim_C1 (home cwd sp : String) (fs : FS) :
    (scrGlob home fs sp = [] → get_scr_img_path home cwd fs sp = none)
    ∧ (scrGlob home fs sp ≠ [] →
        ∃ f ∈ scrGlob home fs sp,
          (∀ g ∈ scrGlob home fs sp, fs.mtime g ≤ fs.mtime f)
          ∧ get_scr_img_path home cwd fs sp = some (os_abspath cwd f)) := by
  constructor
  · intro h
    unfold get_scr_img_path
    rw [h]
  · intro h
    obtain ⟨x, xs, hg⟩ : ∃ x xs, scrGlob home fs sp = x :: xs := by
      cases hgl : scrGlob home fs sp with
      | nil => exact absurd hgl h
      | cons x xs => exact ⟨x, xs, rfl⟩
    refine ⟨xs.foldl (fun acc y => if fs.mtime acc < fs.mtime y then y else acc) x, ?_, ?_, ?_⟩
    · rw [hg]; exact foldlPyMax_mem fs.mtime x xs
    · rw [hg]; exact foldlPyMax_ge fs.mtime x xs
    · unfold get_scr_img_path
      rw [hg]

/-- Witness for claim C1: a directory holding two screenshots and an
unrelated file. -/
theorem claim_C1_witness :
    scrGlob ("/h") fsDemo ("~/Downloads/") ≠ []
    ∧ ∃ f ∈ scrGlob ("/h") fsDemo ("~/Downloads/"),
        (∀ g ∈ scrGlob ("/h") fsDemo ("~/Downloads/"), fsDemo.mtime g ≤ fsDemo.mtime f)
        ∧ get_scr_img_path ("/h") ("/c") fsDemo ("~/Downloads/") = some (os_abspath ("/c") f) :=
  ⟨by decide, (claim_C1 ("/h") ("/c") ("~/Downloads/") fsDemo).2 (by decide)⟩

/-- Counterexample to claim C9: two matching files with equal modification
times; the locator returns the FIRST of them in listing order, not the last
one. -/
theorem claim_C9_counterexample :
    scrGlob ("/h") fsTie ("/d") = ["/d/SCR-a.png", "/d/SCR-b.png"]
    ∧ fsTie.mtime ("/d/SCR-a.png") = fsTie.mtime ("/d/SCR-b.png")
    ∧ ¬ get_scr_img_path ("/h") ("/c") fsTie ("/d")
        = some (os_abspath ("/c") ("/d/SCR-b.png"))
    ∧ get_scr_img_path ("/h") ("/c") fsTie ("/d") = some ("/d/SCR-a.png") := by
  refine ⟨by decide, rfl, ?_, by decide⟩
  intro h
  rw [show get_scr_img_path ("/h") ("/c") fsTie ("/d") = some ("/d/SCR-a.png") from by decide]
    at h
  rw [show os_abspath ("/c") ("/d/SCR-b.png") = "/d/SCR-b.png" from by decide] at h
  exact absurd (Option.some_inj.mp h) (by decide)

theorem foldlPyMax_first (key : String → Int) (x : String) (xs : List String) :
    ∃ pre post, x :: xs = pre ++ (xs.foldl (fun acc y => if key acc < key y then y else acc) x) :: post
      ∧ (∀ g ∈ pre, key g < key (xs.foldl (fun acc y => if key acc < key y then y else acc) x))
      ∧ (∀ g ∈ post, key g ≤ key (xs.foldl (fun acc y => if key acc < key y then y else acc) x)) := by
  induction xs generalizing x with
  | nil => exact ⟨[], [], rfl, by simp, by simp⟩
  | cons y ys ih =>
    simp only [List.foldl]
    by_cases h : key x < key y
    · simp only [if_pos h]
      obtain ⟨pre, post, hdec, hpre, hpost⟩ := ih y
      refine ⟨x :: pre, post, ?_, ?_, hpost⟩
      · rw [List.cons_append, ← hdec]
      · intro g hg
        rcases List.mem_cons.mp hg with rfl | hg2
        · exact lt_of_lt_of_le h (foldlPyMax_ge key y ys y (List.mem_cons_self y ys))
        · exact hpre g hg2
    · simp only [if_neg h]
      obtain ⟨pre, post, hdec, hpre, hpost⟩ := ih x
      cases pre with
      | nil =>
        simp only [List.nil_append] at hdec
        obtain ⟨hm, hpost2⟩ := List.cons.inj hdec
        refine ⟨[], y :: ys, ?_, by simp, ?_⟩
        · rw [List.nil_append, ← hm]
        · intro g hg
          rcases List.mem_cons.mp hg with rfl | hg2
          · rw [← hm]; exact le_of_not_lt h
          · exact hpost g (hpost2 ▸ hg2)
      | cons p ps =>
        simp only [List.cons_append] at hdec
        obtain ⟨hp, hrest⟩ := List.cons.inj hdec
        refine ⟨x :: y :: ps, post, ?_, ?_, hpost⟩
        · rw [List.cons_append, List.cons_append, ← hrest]
        · intro g hg
          have hxlt : key x < key (ys.foldl (fun acc y => if key acc < key y then y else acc) x) := by
            have := hpre p (List.mem_cons_self p ps)
            rw [← hp] at this
            exact this
          rcases List.mem_cons.mp hg with rfl | hg2
          · exact hxlt
          · rcases List.mem_cons.mp hg2 with rfl | hg3
            · exact lt_of_le_of_lt (le_of_not_lt h) hxlt
            · exact hpre g (List.mem_cons_of_mem p hg3)

/-- Claim C9 (amended): on ties of the maximal modification time the locator
returns the FIRST matching file encountered in the directory listing: every
earlier match is strictly older, every later match is no newer. -/
theorem claim_C9_amended (home cwd sp : String) (fs : FS) (h : scrGlob home fs sp ≠ []) :
    ∃ pre f post, scrGlob home fs sp = pre ++ f :: post
      ∧ (∀ g ∈ pre, fs.mtime g < fs.mtime f)
      ∧ (∀ g ∈ post, fs.mtime g ≤ fs.mtime f)
      ∧ get_scr_img_path home cwd fs sp = some (os_abspath cwd f) := by
  obtain ⟨x, xs, hg⟩ : ∃ x xs, scrGlob home fs sp = x :: xs := by
    cases hgl : scrGlob home fs sp with
    | nil => exact absurd hgl h
    | cons x xs => exact ⟨x, xs, rfl⟩
  obtain ⟨pre, post, hdec, hpre, hpost⟩ := foldlPyMax_first fs.mtime x xs
  refine ⟨pre, _, post, by rw [hg]; exact hdec, hpre, hpost, ?_⟩
  unfold get_scr_img_path
  rw [hg]

/-- Witness for the amended claim C9 on the tied directory. -/
theorem claim_C9_witness :
    scrGlob ("/h") fsTie ("/d") ≠ []
    ∧ ∃ pre f post, scrGlob ("/h") fsTie ("/d") = pre ++ f :: post
        ∧ (∀ g ∈ pre, fsTie.mtime g < fsTie.mtime f)
        ∧ (∀ g ∈ post, fsTie.mtime g ≤ fsTie.mtime f)
        ∧ get_scr_img_path ("/h") ("/c") fsTie ("/d") = some (os_abspath ("/c") f) :=
  ⟨by decide, claim_C9_amended ("/h") ("/c") ("/d") fsTie (by decide)⟩

/-! ## Compressor (claims C6 and C7) -/

/-- Claim C6: an absent (or empty) image path or filename yields None with
no command run; a failing command yields None after printing the error, with
no exception. -/
theorem claim_C6 (sys : Sys) :
    (∀ ip sf, (optFalsy ip = true ∨ optFalsy sf = true) →
      compress_image_webp sys ip sf = .ok ⟨none, [], none, false⟩)
    ∧ (∀ p f, p.isEmpty = false → f.isEmpty = false →
        sys.runExit (cwebpCommand p (outputPath p f)) ≠ 0 →
        compress_image_webp sys (some p) (some f)
          = .ok ⟨none, [cwebpCommand p (outputPath p f)], none, true⟩) := by
  constructor
  · intro ip sf h
    unfold compress_image_webp
    rcases h with h | h <;> simp [h]
  · intro p f hp hf hr
    unfold compress_image_webp
    simp only [optFalsy, hp, hf, Bool.or_self, Bool.false_eq_true, if_false, Option.getD_some]
    rw [if_pos hr]

/-- Witness for claim C6: an absent image path, and a command that exits 1. -/
theorem claim_C6_witness :
    compress_image_webp sysFail none (some ("x")) = .ok ⟨none, [], none, false⟩
    ∧ compress_image_webp sysFail (some ("a/in.png")) (some ("nm"))
        = .ok ⟨none, [cwebpCommand ("a/in.png") (outputPath ("a/in.png") ("nm"))], none, true⟩ := by
  have h := claim_C6 sysFail
  exact ⟨h.1 none (some ("x")) (Or.inl rfl), h.2 ("a/in.png") ("nm") rfl rfl (by decide)⟩

/-- Claim C7: on success the output path is the source directory joined with
the selected name plus .webp, and the reported ratio is exactly
(1 - output_size/input_size) * 100 over the two file sizes. -/
theorem claim_C7 (sys : Sys) (p f : String) (hp : p.isEmpty = false) (hf : f.isEmpty = false)
    (hrun : sys.runExit (cwebpCommand p (outputPath p f)) = 0)
    (hsz : sys.getsize p ≠ 0) :
    compress_image_webp sys (some p) (some f)
      = .ok ⟨some (outputPath p f), [cwebpCommand p (outputPath p f)],
             some (specCompressionRatio (sys.getsize p) (sys.getsize (outputPath p f))), false⟩ := by
  unfold compress_image_webp specCompressionRatio
  simp only [optFalsy, hp, hf, Bool.or_self, Bool.false_eq_true, if_false, Option.getD_some]
  rw [if_neg (by simp [hrun]), if_neg hsz]

/-- Witness for claim C7: a 1000-byte input compressed to 600 bytes reports
a 40 percent reduction at the expected output path. -/
theorem claim_C7_witness :
    compress_image_webp sysOk (some ("a/in.png")) (some ("nm"))
      = .ok ⟨some ("a/nm.webp"), [cwebpCommand ("a/in.png") ("a/nm.webp")], some 40, false⟩ := by
  have h := claim_C7 sysOk ("a/in.png") ("nm") rfl rfl rfl (by decide)
  have h40 : specCompressionRatio (sysOk.getsize ("a/in.png"))
      (sysOk.getsize (outputPath ("a/in.png") ("nm"))) = 40 := by
    have e1 : sysOk.getsize ("a/in.png") = 1000 := rfl
    have e2 : sysOk.getsize (outputPath ("a/in.png") ("nm")) = 600 := rfl
    rw [e1, e2]
    unfold specCompressionRatio
    norm_num
  rw [h, h40]
  rfl

/-! ## Suggestion client (claim C8) -/

/-- Claim C8: with no screenshot the client returns None having sent no
request; with a screenshot the one transported payload carries exactly the
data URL prefix followed by the base64 of the file's bytes. -/
theorem claim_C8 (post : Json → Json) (home cwd sp : String) (fs : FS) :
    (scrGlob home fs sp = [] → llm_gen_filename post home cwd fs sp = (none, []))
    ∧ (∀ p, get_scr_img_path home cwd fs sp = some p →
        llm_gen_filename post home cwd fs sp =
          (some (post (mkPayload (("data:image/png;base64,") ++ (⟨b64encodeBytes (fs.content p)⟩ : String)))),
           [mkPayload (("data:image/png;base64,") ++ (⟨b64encodeBytes (fs.content p)⟩ : String))])) := by
  constructor
  · intro h
    unfold llm_gen_filename get_screenshot_data_url get_scr_img_path
    rw [h]
  · intro p hp
    unfold llm_gen_filename get_screenshot_data_url
    rw [hp]
    rfl

/-- Witness for claim C8: an empty directory sends nothing; a directory with
one three-byte screenshot (bytes of Man) transports base64 TWFu. -/
theorem claim_C8_witness :
    llm_gen_filename postNull ("/h") ("/c") fsEmptyDir ("~/Downloads/") = (none, [])
    ∧ llm_gen_filename postNull ("/h") ("/c") fsDemo ("~/Downloads/")
        = (some Json.null, [mkPayload ("data:image/png;base64,TWFu")]) := by
  refine ⟨(claim_C8 postNull ("/h") ("/c") ("~/Downloads/") fsEmptyDir).1 rfl, ?_⟩
  have h := (claim_C8 postNull ("/h") ("/c") ("~/Downloads/") fsDemo).2
    ("/h/Downloads/SCR-2.png") rfl
  rw [h]
  rfl

end Scr2Webp
